import Mathlib

/-!
Shallow embedding of the data-cleaning core of the Turkey-earthquake
dashboard (`src/app.py`): the load-and-clean pipeline
(`load_and_preprocess_data`), the region-extraction heuristic
(`extract_region`), the sidebar filter layer (`df_filtered`) and the
per-region aggregator (`df_region_stats` / treemap input).

Modelling conventions:
  * nullable dataframe cells (NaN / NaT) are `Option` values; every pandas
    comparison on a null cell is `false`, which the `opt…` helpers encode;
  * floating-point magnitudes, depths and coordinates are embedded as `ℚ`
    (the program only compares and averages them; no NaN arithmetic occurs
    on retained values);
  * a Python expression that raises (`[][0]` from `str.split()[0]` on an
    empty split) is `none`; a whole-column `apply` propagates such a
    failure, so the pipeline returns `Option (List Row)`;
  * `re.search(r'\(([^)]+)\)', s)` is embedded as a left-to-right scan for
    the first position where `'('` is followed by a non-empty run of
    non-`')'` characters and then `')'`.
-/

namespace Quakes

/-- Python `str.strip()` on a list of characters: drop leading and trailing
whitespace. -/
def stripChars (l : List Char) : List Char :=
  ((l.dropWhile Char.isWhitespace).reverse.dropWhile Char.isWhitespace).reverse

/-- Python `str.split()[0]` on a list of characters: the first
whitespace-delimited token, or `none` when there is no token (in which case
the Python indexing raises `IndexError`). -/
def firstToken? (l : List Char) : Option (List Char) :=
  match l.dropWhile Char.isWhitespace with
  | [] => none
  | c :: cs => some ((c :: cs).takeWhile (fun x => !x.isWhitespace))

/-- Python `str.split(sep)` for a one-character separator: split on every
occurrence, keeping empty segments; the result is never empty. -/
def splitOnChar (sep : Char) : List Char → List (List Char)
  | [] => [[]]
  | c :: rest =>
    if c = sep then [] :: splitOnChar sep rest
    else
      match splitOnChar sep rest with
      | [] => [[c]]
      | p :: ps => (c :: p) :: ps

/-- `re.search(r'\(([^)]+)\)', s)`: the group of the leftmost match — the
first position holding `'('` followed by a non-empty run of non-`')'`
characters terminated by `')'`; `none` when no position matches. -/
def findParenGroup : List Char → Option (List Char)
  | [] => none
  | c :: rest =>
    if c = '(' then
      let run := rest.takeWhile (fun x => x ≠ ')')
      if 0 < run.length ∧ run.length < rest.length then some run
      else findParenGroup rest
    else findParenGroup rest

/-- `extract_region` from `src/app.py` (lines 60–69), on an actual string
(the `pd.isna` guard is unreachable for a string input): first parenthetical
group stripped; else, when splitting on `'-'` gives several parts, the first
token of the stripped last part; else the first token of the whole string,
or `"Unknown"` when the string is empty. `none` marks the `IndexError` that
`[][0]` raises when the selected segment has no token. -/
def extract_region (loc : String) : Option String :=
  match findParenGroup loc.toList with
  | some g => some (String.mk (stripChars g))
  | none =>
    let parts := splitOnChar '-' loc.toList
    if 1 < parts.length then
      (firstToken? (stripChars (parts.getLastD []))).map String.mk
    else if loc = "" then some "Unknown"
    else (firstToken? loc.toList).map String.mk

/-- The region rules as §4.4 of the specification words them, rules 1–3 in
priority order: first parenthetical group, trimmed; else, when the string
contains a hyphen, the first whitespace-delimited token of the trimmed last
hyphen segment; else the first whitespace-delimited token of the whole
string (`none` when the designated token does not exist). -/
def specRegionRules (s : String) : Option String :=
  match findParenGroup s.toList with
  | some g => some (String.mk (stripChars g))
  | none =>
    if '-' ∈ s.toList then
      (firstToken? (stripChars ((splitOnChar '-' s.toList).getLastD []))).map String.mk
    else (firstToken? s.toList).map String.mk

/-- A row of the raw CSV after the column rename: the five renamed fields
plus the magnitude column `xM`. Any cell may be missing. -/
structure RawRow where
  dateStr : Option String
  latitude : Option ℚ
  longitude : Option ℚ
  depth : Option ℚ
  xM : Option ℚ
  location : Option String
deriving DecidableEq

/-- A row of the cleaned dataset: parsed date `(year, month, day)`, derived
year, the numeric columns (still nullable, as dataframe cells are), the
null-replaced location and the derived region. -/
structure Row where
  date : Option (Nat × Nat × Nat)
  year : Option Nat
  latitude : Option ℚ
  longitude : Option ℚ
  depth : Option ℚ
  xM : Option ℚ
  location : String
  region : Option String
deriving DecidableEq

/-- Numeric value of a list of decimal digits. -/
def digitsToNat (l : List Char) : Nat :=
  l.foldl (fun n c => 10 * n + (c.toNat - 48)) 0

def isLeapYear (y : Nat) : Bool :=
  y % 4 = 0 && (!(y % 100 = 0) || y % 400 = 0)

def daysInMonth (y m : Nat) : Nat :=
  if m = 2 then (if isLeapYear y then 29 else 28)
  else if m = 4 ∨ m = 6 ∨ m = 9 ∨ m = 11 then 30
  else 31

/-- `pd.to_datetime(col, format="%Y.%m.%d", errors="coerce")` on one cell:
the whole string must be year `.` month `.` day with `%Y` at most four
digits and `%m`, `%d` at most two, naming a valid calendar date; anything
else coerces to `none` (NaT) instead of raising. (The parser's
representable-timestamp range is not modelled; the catalog's dates lie well
inside it.) -/
def parseDateYMD (s : String) : Option (Nat × Nat × Nat) :=
  match splitOnChar '.' s.toList with
  | [y, m, d] =>
    if y ≠ [] ∧ y.length ≤ 4 ∧ y.all Char.isDigit ∧
       m ≠ [] ∧ m.length ≤ 2 ∧ m.all Char.isDigit ∧
       d ≠ [] ∧ d.length ≤ 2 ∧ d.all Char.isDigit then aux (digitsToNat y) (digitsToNat m) (digitsToNat d)
    else none
  | _ => none
where
  aux (yv mv dv : Nat) : Option (Nat × Nat × Nat) :=
    if 1 ≤ mv ∧ mv ≤ 12 ∧ 1 ≤ dv ∧ dv ≤ daysInMonth yv mv then some (yv, mv, dv)
    else none

/-- Lines 41–45 of `src/app.py` on one row: parse the date, derive the year
(null-propagating, `df["Date"].dt.year`), and replace a null location with
`"Unknown"`. The region column does not exist yet. -/
def normalizeRow (r : RawRow) : Row :=
  let d : Option (Nat × Nat × Nat) :=
    match r.dateStr with
    | none => none
    | some s => parseDateYMD s
  { date := d
    year := d.map (fun t => t.1)
    latitude := r.latitude
    longitude := r.longitude
    depth := r.depth
    xM := r.xM
    location := r.location.getD "Unknown"
    region := none }

/-- `col.between(lo, hi)` on one cell: inclusive bounds, `false` on NaN. -/
def optBetween (x : Option ℚ) (lo hi : ℚ) : Bool :=
  match x with
  | none => false
  | some v => decide (lo ≤ v ∧ v ≤ hi)

/-- `col >= b` on one cell: `false` on NaN. -/
def optGe (x : Option ℚ) (b : ℚ) : Bool :=
  match x with
  | none => false
  | some v => decide (b ≤ v)

/-- `col <= b` on one cell: `false` on NaN. -/
def optLe (x : Option ℚ) (b : ℚ) : Bool :=
  match x with
  | none => false
  | some v => decide (v ≤ b)

/-- `col > b` on one cell: `false` on NaN. -/
def optGt (x : Option ℚ) (b : ℚ) : Bool :=
  match x with
  | none => false
  | some v => decide (b < v)

/-- `Year >= b` on one cell of the nullable year column. -/
def optGeNat (x : Option Nat) (b : Nat) : Bool :=
  match x with
  | none => false
  | some v => decide (b ≤ v)

/-- `Year <= b` on one cell of the nullable year column. -/
def optLeNat (x : Option Nat) (b : Nat) : Bool :=
  match x with
  | none => false
  | some v => decide (v ≤ b)

/-- The coordinate quality gate (lines 48–53): latitude between 35 and 43,
longitude between 25 and 45, both non-null (the `notna` conjuncts of the
source are kept even though `between` already fails on null). -/
def coordOK (r : Row) : Bool :=
  optBetween r.latitude 35 43 && optBetween r.longitude 25 45 &&
  r.latitude.isSome && r.longitude.isSome

/-- `df["Region"] = df["Location"].apply(extract_region)`: an exception on
any row aborts the whole `apply`, hence the `Option` result. -/
def applyRegionAll : List Row → Option (List Row)
  | [] => some []
  | r :: rs =>
    match extract_region r.location, applyRegionAll rs with
    | some g, some rest => some ({ r with region := some g } :: rest)
    | _, _ => none

/-- `load_and_preprocess_data` of `src/app.py` after the CSV read and the
column rename, on the list of raw rows: normalize (date, year, location
fill), the three successive quality-gate filters, then the region column. -/
def load_and_preprocess_data (raws : List RawRow) : Option (List Row) :=
  let df1 := raws.map normalizeRow
  let df2 := df1.filter coordOK
  let df3 := df2.filter (fun r => optGe r.depth 0)
  let df4 := df3.filter (fun r => optGt r.xM 0)
  applyRegionAll df4

/-- The four sidebar constraints (lines 88–110): year range, magnitude
range, depth range, large-only checkbox. -/
structure FilterCfg where
  yearLo : Nat
  yearHi : Nat
  magLo : ℚ
  magHi : ℚ
  depthLo : ℚ
  depthHi : ℚ
  largeOnly : Bool
deriving DecidableEq

/-- The six range conjuncts of lines 113–120 on one row. -/
def rangePred (c : FilterCfg) (r : Row) : Bool :=
  optGeNat r.year c.yearLo && optLeNat r.year c.yearHi &&
  optGe r.xM c.magLo && optLe r.xM c.magHi &&
  optGe r.depth c.depthLo && optLe r.depth c.depthHi

/-- `df_filtered` (lines 113–123): the range filter, then the extra
`xM >= 5.0` filter when the large-only checkbox is set. -/
def df_filtered (df : List Row) (c : FilterCfg) : List Row :=
  let base := df.filter (rangePred c)
  if c.largeOnly then base.filter (fun r => optGe r.xM 5) else base

/-- A raw catalog row with a well-formed date, in-bounds coordinates,
non-negative depth and positive magnitude. -/
def demoRaw : RawRow :=
  ⟨some "2000.01.01", some 38, some 30, some 10, some 4, some "Van (Ercis)"⟩

/-- The cleaned row the pipeline produces from `demoRaw`. -/
def demoCleanRow : Row :=
  ⟨some (2000, 1, 1), some 2000, some 38, some 30, some 10, some 4, "Van (Ercis)", some "Ercis"⟩

/-- The conjunction of the three quality-gate filters of lines 48–57,
evaluated on one normalized row: exactly the condition under which the row
survives into the cleaned dataset. -/
def qualityGates (r : Row) : Bool :=
  coordOK r && optGe r.depth 0 && optGt r.xM 0

/-- A raw row whose date field does not match the `%Y.%m.%d` template but
whose coordinates, depth and magnitude pass every quality gate. -/
def rawBadDate : RawRow :=
  ⟨some "06-02-2023", some 38, some 30, some 10, some 4, some "Elbistan"⟩

/-- A cleaned row with a null date and year (all other fields valid). -/
def rowNoYear : Row :=
  ⟨none, none, some 38, some 30, some 10, some 4, "Elbistan", some "Elbistan"⟩

/-- A sidebar configuration wide enough to accept `rowNoYear` on every
constraint except the year comparison. -/
def demoCfg : FilterCfg := ⟨1900, 2024, 0, 9, 0, 100, false⟩

/-- Code-point lexicographic order on character lists: how pandas sorts the
group keys (Python string comparison). -/
def charListLe : List Char → List Char → Bool
  | [], _ => true
  | _ :: _, [] => false
  | a :: as, b :: bs =>
    if a.toNat < b.toNat then true
    else if b.toNat < a.toNat then false
    else charListLe as bs

def strLe (a b : String) : Bool := charListLe a.toList b.toList

/-- Insertion step of the ascending key sort. -/
def insertStr (x : String) : List String → List String
  | [] => [x]
  | y :: ys => if strLe x y then x :: y :: ys else y :: insertStr x ys

/-- Ascending sort of the group keys (`groupby(..., sort=True)`). -/
def sortStr (l : List String) : List String := l.foldr insertStr []

/-- The group keys of `groupby("Region")` on a view: the distinct non-null
region labels, sorted ascending (null keys are dropped by pandas). -/
def regionKeys (view : List Row) : List String :=
  sortStr (view.filterMap (fun r => r.region)).dedup

/-- The rows of one region group. -/
def groupRows (view : List Row) (g : String) : List Row :=
  view.filter (fun r => decide (r.region = some g))

/-- The `Count` cell of `df_region_stats` for region `g`: pandas
`agg {"xM": "count"}` counts the non-null `xM` cells of the group. -/
def regionCount (view : List Row) (g : String) : Nat :=
  ((groupRows view g).filterMap (fun r => r.xM)).length

/-- `max` of a list of cells, `none` (NaN) when the list is empty. -/
def listMax? (l : List ℚ) : Option ℚ :=
  match l with
  | [] => none
  | x :: xs => some (xs.foldl max x)

/-- `mean` of a list of cells, `none` (NaN) when the list is empty; pandas
skips null cells, so the callers pass the non-null values only. -/
def listMean? (l : List ℚ) : Option ℚ :=
  match l with
  | [] => none
  | _ :: _ => some (l.sum / (l.length : ℚ))

/-- One row of `df_region_stats` (lines 184–188): region, count, mean and
max magnitude, mean depth. -/
structure RegionStat where
  region : String
  count : Nat
  avg_mag : Option ℚ
  max_mag : Option ℚ
  avg_depth : Option ℚ
deriving DecidableEq

/-- The aggregate row of one region group. -/
def statsFor (view : List Row) (g : String) : RegionStat :=
  let mags := (groupRows view g).filterMap (fun r => r.xM)
  let depths := (groupRows view g).filterMap (fun r => r.depth)
  { region := g
    count := mags.length
    avg_mag := listMean? mags
    max_mag := listMax? mags
    avg_depth := listMean? depths }

/-- `df_region_stats` (lines 184–189): the per-region aggregates of a view,
keeping only the groups whose count is at least 10. -/
def df_region_stats (view : List Row) : List RegionStat :=
  ((regionKeys view).map (statsFor view)).filter (fun s => decide (10 ≤ s.count))

/-- `b` may stand after `a` in the count-descending order. -/
def countGe (a b : RegionStat) : Bool := decide (b.count ≤ a.count)

/-- Insertion step of the stable count-descending sort (`nlargest` keeps the
earlier of two equal-count rows first). -/
def insertByCount (x : RegionStat) : List RegionStat → List RegionStat
  | [] => [x]
  | y :: ys => if countGe x y then x :: y :: ys else y :: insertByCount x ys

/-- Stable count-descending sort of the aggregate rows. -/
def sortByCountDesc (l : List RegionStat) : List RegionStat :=
  l.foldr insertByCount []

/-- `df_region_stats.nlargest(25, "Count")` (line 199): the treemap's input
— the top 25 surviving groups by count. -/
def fig_treemap_data (view : List Row) : List RegionStat :=
  (sortByCountDesc (df_region_stats view)).take 25

/-- A view row carrying region label `g` and a non-null magnitude. -/
def statRow (g : String) : Row :=
  ⟨none, some 2000, some 38, some 30, some 10, some 4, g, some g⟩

/-- A view in which region `"Ankara"` has group count 9. -/
def view9 : List Row := List.replicate 9 (statRow "Ankara")

/-- A view in which region `"Bolu"` has group count 10. -/
def view10 : List Row := List.replicate 10 (statRow "Bolu")

theorem splitOnChar_ne_nil (sep : Char) (l : List Char) : splitOnChar sep l ≠ [] := by
  induction l with
  | nil => simp [splitOnChar]
  | cons c rest ih =>
    by_cases hc : c = sep
    · simp [splitOnChar, hc]
    · cases h : splitOnChar sep rest with
      | nil => exact absurd h ih
      | cons p ps => simp [splitOnChar, hc, h]

theorem one_lt_splitOnChar_length (sep : Char) (l : List Char) :
    1 < (splitOnChar sep l).length ↔ sep ∈ l := by
  induction l with
  | nil => simp [splitOnChar]
  | cons c rest ih =>
    by_cases hc : c = sep
    · subst hc
      have hne := splitOnChar_ne_nil c rest
      have hpos : 0 < (splitOnChar c rest).length := List.length_pos.mpr hne
      have hunf : splitOnChar c (c :: rest) = [] :: splitOnChar c rest := by
        simp [splitOnChar]
      rw [hunf]
      simp only [List.length_cons]
      constructor
      · intro _; exact List.mem_cons_self c rest
      · intro _; omega
    · cases h : splitOnChar sep rest with
      | nil => exact absurd h (splitOnChar_ne_nil sep rest)
      | cons p ps =>
        have hlen : (splitOnChar sep rest).length = ps.length + 1 := by
          rw [h]; simp
        simp only [splitOnChar, if_neg hc, h, List.length_cons, List.mem_cons]
        rw [h, List.length_cons] at ih
        constructor
        · intro hgt; exact Or.inr (ih.mp (by omega))
        · intro hor
          rcases hor with heq | hmem
          · exact absurd heq.symm hc
          · have := ih.mpr hmem; omega

/-- C2: for every non-null location string, the extractor applies §4.4's
rules in strict priority order with first match winning — the first
parenthetical group (trimmed) beats the hyphen rule; otherwise the first
whitespace-delimited token of the trimmed last hyphen segment; otherwise the
first whitespace-delimited token of the whole string. Stated as refinement:
on every non-empty string, `extract_region` agrees exactly with
`specRegionRules`, the literal transcription of the spec's rules 1–3 (a rule
whose designated token does not exist yields no value on either side; the
degenerate empty cases are the subject of C3). -/
theorem extract_region_follows_spec_priority (s : String) (hs : s ≠ "") :
    extract_region s = specRegionRules s := by
  unfold extract_region specRegionRules
  cases h : findParenGroup s.toList with
  | some g => rfl
  | none =>
    simp only
    by_cases hm : '-' ∈ s.toList
    · rw [if_pos ((one_lt_splitOnChar_length '-' s.toList).mpr hm), if_pos hm]
    · rw [if_neg (fun hlt => hm ((one_lt_splitOnChar_length '-' s.toList).mp hlt)),
        if_neg hm, if_neg hs]

/-- Witness for C2 at the concrete input `"Van-Eski (Ercis)"`, which holds
both a parenthetical group and a hyphen. -/
theorem extract_region_follows_spec_priority_witness :
    extract_region "Van-Eski (Ercis)" = specRegionRules "Van-Eski (Ercis)" :=
  extract_region_follows_spec_priority "Van-Eski (Ercis)" (by decide)

/-- C3: `extract_region` is not total on degenerate inputs. On the empty
string it does return `"Unknown"`, but on a whitespace-only string and on a
string ending in a hyphen the selected segment has no whitespace-delimited
token, `str.split()` yields the empty list and the `[0]` indexing raises
`IndexError` (modelled as `none`): extraction does not complete with a
label there, contradicting the claim. -/
theorem extract_region_degenerate_inputs :
    extract_region "" = some "Unknown" ∧
    extract_region " " = none ∧
    extract_region "Malatya-" = none := by decide

/-- C4: the three spec examples of region extraction — `"Van (Ercis)"` by
the parenthetical rule, `"Malatya-Doganyol"` by the hyphen rule and
`"Hakkari Yuksekova"` by the first-token rule. -/
theorem extract_region_examples :
    extract_region "Van (Ercis)" = some "Ercis" ∧
    extract_region "Malatya-Doganyol" = some "Doganyol" ∧
    extract_region "Hakkari Yuksekova" = some "Hakkari" := by decide

theorem optBetween_eq_true {x : Option ℚ} {lo hi : ℚ} (h : optBetween x lo hi = true) :
    ∃ v, x = some v ∧ lo ≤ v ∧ v ≤ hi := by
  cases x with
  | none => simp [optBetween] at h
  | some v => exact ⟨v, rfl, of_decide_eq_true h⟩

theorem optGe_eq_true {x : Option ℚ} {b : ℚ} (h : optGe x b = true) :
    ∃ v, x = some v ∧ b ≤ v := by
  cases x with
  | none => simp [optGe] at h
  | some v => exact ⟨v, rfl, of_decide_eq_true h⟩

theorem optGt_eq_true {x : Option ℚ} {b : ℚ} (h : optGt x b = true) :
    ∃ v, x = some v ∧ b < v := by
  cases x with
  | none => simp [optGt] at h
  | some v => exact ⟨v, rfl, of_decide_eq_true h⟩

theorem applyRegionAll_mem {l out : List Row} {r' : Row}
    (h : applyRegionAll l = some out) (hm : r' ∈ out) :
    ∃ r ∈ l, ∃ g, extract_region r.location = some g ∧ r' = { r with region := some g } := by
  induction l generalizing out with
  | nil =>
    simp only [applyRegionAll, Option.some.injEq] at h
    subst h; cases hm
  | cons x xs ih =>
    unfold applyRegionAll at h
    cases hx : extract_region x.location with
    | none => rw [hx] at h; cases h
    | some g =>
      rw [hx] at h
      cases hrest : applyRegionAll xs with
      | none => rw [hrest] at h; cases h
      | some rest =>
        rw [hrest] at h
        simp only [Option.some.injEq] at h
        subst h
        rcases List.mem_cons.mp hm with heq | hmem
        · exact ⟨x, List.mem_cons_self x xs, g, hx, heq⟩
        · obtain ⟨r, hr, g', hg', he⟩ := ih hrest hmem
          exact ⟨r, List.mem_cons_of_mem x hr, g', hg', he⟩

/-- C1: every row of the cleaned dataset (when the pipeline completes) has a
non-null latitude in `[35, 43]`, a non-null longitude in `[25, 45]`, a
non-null depth `≥ 0`, a non-null magnitude `> 0`, and a non-null region. -/
theorem cleaned_dataset_invariants (raws : List RawRow) (rows : List Row) (r : Row)
    (hp : load_and_preprocess_data raws = some rows) (hr : r ∈ rows) :
    (∃ v, r.latitude = some v ∧ 35 ≤ v ∧ v ≤ 43) ∧
    (∃ v, r.longitude = some v ∧ 25 ≤ v ∧ v ≤ 45) ∧
    (∃ v, r.depth = some v ∧ 0 ≤ v) ∧
    (∃ v, r.xM = some v ∧ 0 < v) ∧
    r.region.isSome = true := by
  unfold load_and_preprocess_data at hp
  obtain ⟨r0, hr0, g, hg, rfl⟩ := applyRegionAll_mem hp hr
  obtain ⟨hr3, hxm⟩ := List.mem_filter.mp hr0
  obtain ⟨hr2, hdep⟩ := List.mem_filter.mp hr3
  obtain ⟨_, hco⟩ := List.mem_filter.mp hr2
  simp only [coordOK, Bool.and_eq_true] at hco
  obtain ⟨⟨⟨hlat, hlon⟩, _⟩, _⟩ := hco
  obtain ⟨vla, hvla, hla1, hla2⟩ := optBetween_eq_true hlat
  obtain ⟨vlo, hvlo, hlo1, hlo2⟩ := optBetween_eq_true hlon
  obtain ⟨vd, hvd, hd⟩ := optGe_eq_true hdep
  obtain ⟨vm, hvm, hm⟩ := optGt_eq_true hxm
  exact ⟨⟨vla, hvla, hla1, hla2⟩, ⟨vlo, hvlo, hlo1, hlo2⟩,
    ⟨vd, hvd, hd⟩, ⟨vm, hvm, hm⟩, rfl⟩

/-- Witness for C1 at the one-row catalog `[demoRaw]`. -/
theorem cleaned_dataset_invariants_witness :
    (∃ v, demoCleanRow.latitude = some v ∧ 35 ≤ v ∧ v ≤ 43) ∧
    (∃ v, demoCleanRow.longitude = some v ∧ 25 ≤ v ∧ v ≤ 45) ∧
    (∃ v, demoCleanRow.depth = some v ∧ 0 ≤ v) ∧
    (∃ v, demoCleanRow.xM = some v ∧ 0 < v) ∧
    demoCleanRow.region.isSome = true :=
  cleaned_dataset_invariants [demoRaw] [demoCleanRow] demoCleanRow (by decide) (by decide)

/-- C9: `"2023.02.06"` parses to year 2023; `"06-02-2023"` does not match
the strict `%Y.%m.%d` template, so it coerces to a null date (no exception)
and the derived year is null; such a row is kept by the pipeline (evaluated
on `rawBadDate`); and in general survival of the quality gates never
depends on the date field, so no row is dropped solely for a null date. -/
theorem strict_date_parsing :
    (parseDateYMD "2023.02.06").map (fun t => t.1) = some 2023 ∧
    parseDateYMD "06-02-2023" = none ∧
    load_and_preprocess_data [rawBadDate] =
      some [{ date := none, year := none, latitude := some 38, longitude := some 30,
              depth := some 10, xM := some 4, location := "Elbistan",
              region := some "Elbistan" }] ∧
    ∀ (raw : RawRow) (s : Option String),
      qualityGates (normalizeRow { raw with dateStr := s }) =
        qualityGates (normalizeRow raw) :=
  ⟨by decide, by decide, by decide, fun raw s => rfl⟩

/-- C10: a cleaned-dataset row whose year is null (its date failed to
parse) satisfies neither year-range comparison, so it never appears in any
output of the interactive filter layer, whatever the constraints. -/
theorem null_year_rows_never_pass_filter (df : List Row) (c : FilterCfg) (r : Row)
    (hy : r.year = none) : r ∉ df_filtered df c := by
  intro hmem
  unfold df_filtered at hmem
  have hr : r ∈ df.filter (rangePred c) := by
    by_cases hl : c.largeOnly
    · rw [if_pos hl] at hmem; exact (List.mem_filter.mp hmem).1
    · rw [if_neg hl] at hmem; exact hmem
  have hp := (List.mem_filter.mp hr).2
  simp [rangePred, optGeNat, hy] at hp

/-- Witness for C10: the null-year row is absent even from the filter of
the singleton dataset holding it. -/
theorem null_year_rows_never_pass_filter_witness :
    rowNoYear ∉ df_filtered [rowNoYear] demoCfg :=
  null_year_rows_never_pass_filter [rowNoYear] demoCfg rowNoYear rfl

theorem largeOnly_pointwise (yLo yHi : Nat) (dLo dHi : ℚ) (r : Row) :
    (optGe r.xM 5 && rangePred ⟨yLo, yHi, 3.5, 9, dLo, dHi, true⟩ r) =
      rangePred ⟨yLo, yHi, 5, 9, dLo, dHi, false⟩ r := by
  cases hx : r.xM with
  | none => simp [rangePred, optGe, hx]
  | some v =>
    by_cases h5 : (5 : ℚ) ≤ v
    · have h35 : (3.5 : ℚ) ≤ v := le_trans (by norm_num) h5
      simp [rangePred, optGe, optLe, hx, h5, h35]
    · simp [rangePred, optGe, optLe, hx, h5]

/-- C5: on any dataset, for any fixed year and depth ranges, the filter
layer with magnitude range `[3.5, 9]` and the large-only flag set returns
exactly the rows of the filter layer with magnitude range `[5, 9]` and the
flag clear: the two magnitude constraints intersect and the stricter bound
wins per row. -/
theorem largeOnly_equals_strict_range (df : List Row) (yLo yHi : Nat) (dLo dHi : ℚ) :
    df_filtered df ⟨yLo, yHi, 3.5, 9, dLo, dHi, true⟩ =
      df_filtered df ⟨yLo, yHi, 5, 9, dLo, dHi, false⟩ := by
  show (df.filter (rangePred ⟨yLo, yHi, 3.5, 9, dLo, dHi, true⟩)).filter
      (fun r => optGe r.xM 5) =
    df.filter (rangePred ⟨yLo, yHi, 5, 9, dLo, dHi, false⟩)
  rw [List.filter_filter]
  exact List.filter_congr (fun r _ => largeOnly_pointwise yLo yHi dLo dHi r)

theorem filter_idem {α : Type} (p : α → Bool) (l : List α) :
    (l.filter p).filter p = l.filter p :=
  List.filter_eq_self.mpr (fun _ ha => (List.mem_filter.mp ha).2)

theorem filter_sub_idem {α : Type} (p q : α → Bool) (l : List α) :
    ((l.filter p).filter q).filter p = (l.filter p).filter q :=
  List.filter_eq_self.mpr
    (fun _ ha => (List.mem_filter.mp (List.mem_filter.mp ha).1).2)

/-- C6: the interactive filter layer is idempotent — running the filter on
its own output, with the same four constraints, returns the same rows. -/
theorem df_filtered_idempotent (df : List Row) (c : FilterCfg) :
    df_filtered (df_filtered df c) c = df_filtered df c := by
  by_cases hl : c.largeOnly
  · simp only [df_filtered, if_pos hl]
    rw [filter_sub_idem (rangePred c) (fun r => optGe r.xM 5) df,
      filter_idem (fun r => optGe r.xM 5) (df.filter (rangePred c))]
  · simp only [df_filtered, if_neg hl]
    exact filter_idem _ _

theorem mem_insertStr (x a : String) (l : List String) :
    a ∈ insertStr x l ↔ a = x ∨ a ∈ l := by
  induction l with
  | nil => simp [insertStr]
  | cons y ys ih =>
    by_cases h : strLe x y = true
    · simp [insertStr, h]
    · simp only [insertStr, if_neg h, List.mem_cons, ih]
      tauto

theorem mem_sortStr (a : String) (l : List String) : a ∈ sortStr l ↔ a ∈ l := by
  induction l with
  | nil => simp [sortStr]
  | cons x xs ih =>
    show a ∈ insertStr x (sortStr xs) ↔ _
    rw [mem_insertStr, ih, List.mem_cons]

theorem mem_insertByCount (x a : RegionStat) (l : List RegionStat) :
    a ∈ insertByCount x l ↔ a = x ∨ a ∈ l := by
  induction l with
  | nil => simp [insertByCount]
  | cons y ys ih =>
    by_cases h : countGe x y = true
    · simp [insertByCount, h]
    · simp only [insertByCount, if_neg h, List.mem_cons, ih]
      tauto

theorem mem_sortByCountDesc (a : RegionStat) (l : List RegionStat) :
    a ∈ sortByCountDesc l ↔ a ∈ l := by
  induction l with
  | nil => simp [sortByCountDesc]
  | cons x xs ih =>
    show a ∈ insertByCount x (sortByCountDesc xs) ↔ _
    rw [mem_insertByCount, ih, List.mem_cons]

theorem pairwise_insertByCount (x : RegionStat) (l : List RegionStat)
    (h : l.Pairwise (fun a b => b.count ≤ a.count)) :
    (insertByCount x l).Pairwise (fun a b => b.count ≤ a.count) := by
  induction l with
  | nil => simp [insertByCount]
  | cons y ys ih =>
    obtain ⟨hy, hys⟩ := List.pairwise_cons.mp h
    by_cases hc : countGe x y = true
    · have hxy : y.count ≤ x.count := of_decide_eq_true hc
      simp only [insertByCount, if_pos hc]
      refine List.pairwise_cons.mpr ⟨?_, h⟩
      intro z hz
      rcases List.mem_cons.mp hz with rfl | hz'
      · exact hxy
      · exact le_trans (hy z hz') hxy
    · have hyx : ¬ y.count ≤ x.count := of_decide_eq_false (eq_false_of_ne_true hc)
      simp only [insertByCount, if_neg hc]
      refine List.pairwise_cons.mpr ⟨?_, ih hys⟩
      intro z hz
      rcases (mem_insertByCount x z ys).mp hz with rfl | hz'
      · omega
      · exact hy z hz'

theorem pairwise_sortByCountDesc (l : List RegionStat) :
    (sortByCountDesc l).Pairwise (fun a b => b.count ≤ a.count) := by
  induction l with
  | nil => simp [sortByCountDesc]
  | cons x xs ih => exact pairwise_insertByCount x (sortByCountDesc xs) ih

/-- C7: a region whose group count is below the fixed threshold 10 (for
instance exactly 9) is excluded from the aggregator's result, while a region
whose group count is exactly 10 survives the threshold filter and is
eligible for the top list. -/
theorem aggregator_count_threshold (view : List Row) (g : String) :
    (regionCount view g < 10 → g ∉ (fig_treemap_data view).map RegionStat.region) ∧
    (regionCount view g = 10 → g ∈ (df_region_stats view).map RegionStat.region) := by
  constructor
  · intro hlt hmem
    obtain ⟨s, hs, hreg⟩ := List.mem_map.mp hmem
    have hs1 : s ∈ sortByCountDesc (df_region_stats view) :=
      List.take_subset 25 _ hs
    have hs2 : s ∈ df_region_stats view := (mem_sortByCountDesc s _).mp hs1
    obtain ⟨hs3, hcnt⟩ := List.mem_filter.mp hs2
    obtain ⟨g', _, hsg⟩ := List.mem_map.mp hs3
    subst hsg
    have hgg : g' = g := hreg
    subst hgg
    have h10 : 10 ≤ regionCount view g' := of_decide_eq_true hcnt
    omega
  · intro heq
    have hpos : 0 < ((groupRows view g).filterMap (fun r => r.xM)).length := by
      unfold regionCount at heq; omega
    obtain ⟨x, hx⟩ := List.exists_mem_of_ne_nil _ (List.ne_nil_of_length_pos hpos)
    obtain ⟨r, hrv', hrx⟩ := List.mem_filterMap.mp hx
    obtain ⟨hrv, hrg⟩ := List.mem_filter.mp hrv'
    have hreg : r.region = some g := of_decide_eq_true hrg
    have hkey : g ∈ regionKeys view := by
      unfold regionKeys
      rw [mem_sortStr, List.mem_dedup]
      exact List.mem_filterMap.mpr ⟨r, hrv, hreg⟩
    refine List.mem_map.mpr ⟨statsFor view g, ?_, rfl⟩
    refine List.mem_filter.mpr ⟨List.mem_map.mpr ⟨g, hkey, rfl⟩, ?_⟩
    exact decide_eq_true (show 10 ≤ regionCount view g by omega)

/-- Witness for C7: count 9 is excluded (on `view9`), count 10 is eligible
(on `view10`). -/
theorem aggregator_count_threshold_witness :
    "Ankara" ∉ (fig_treemap_data view9).map RegionStat.region ∧
    "Bolu" ∈ (df_region_stats view10).map RegionStat.region :=
  ⟨(aggregator_count_threshold view9 "Ankara").1 (by decide),
   (aggregator_count_threshold view10 "Bolu").2 (by decide)⟩

/-- C8: the treemap's input never holds more than 25 groups; each of them
is a surviving group of `df_region_stats`, and they are top by count — any
surviving group left out has a count no larger than that of every group
kept. -/
theorem treemap_top25 (view : List Row) :
    (fig_treemap_data view).length ≤ 25 ∧
    (∀ s ∈ fig_treemap_data view, s ∈ df_region_stats view) ∧
    (∀ s ∈ fig_treemap_data view, ∀ t ∈ df_region_stats view,
      t ∉ fig_treemap_data view → t.count ≤ s.count) := by
  refine ⟨List.length_take_le 25 _, ?_, ?_⟩
  · intro s hs
    exact (mem_sortByCountDesc s _).mp (List.take_subset 25 _ hs)
  · intro s hs t ht hnot
    have hP : (sortByCountDesc (df_region_stats view)).Pairwise
        (fun a b => b.count ≤ a.count) := pairwise_sortByCountDesc _
    have hsplit : sortByCountDesc (df_region_stats view) =
        (sortByCountDesc (df_region_stats view)).take 25 ++
          (sortByCountDesc (df_region_stats view)).drop 25 :=
      (List.take_append_drop 25 _).symm
    rw [hsplit] at hP
    have hcross := (List.pairwise_append.mp hP).2.2
    have htL : t ∈ sortByCountDesc (df_region_stats view) :=
      (mem_sortByCountDesc t _).mpr ht
    rw [hsplit] at htL
    have htd : t ∈ (sortByCountDesc (df_region_stats view)).drop 25 := by
      rcases List.mem_append.mp htL with h1 | h2
      · exact absurd h1 hnot
      · exact h2
    exact hcross s hs t htd

end Quakes
